import Mathlib

/-!
Shallow embedding of the frontend of the object-detection-yolo repository:
the upload page (`HomePage` in `src/frontend/src/app/page.tsx`), the live
streaming page (`LivePage`, same file), the job page
(`src/frontend/src/app/jobs/[id]/page.tsx`) and the API client
(`src/frontend/src/lib/api.ts`).  Each definition mirrors one source
function; stateful React code is embedded as explicit state passing, and
the live page's event handlers become a step relation on a session state.
-/

namespace OdYolo

/-- The `TaskType` union from `src/frontend/src/lib/types.ts`:
`"object" | "pose"`. -/
inductive TaskType where
  | object
  | pose
deriving DecidableEq, Repr

/-- The string a `TaskType` value denotes in requests and form fields. -/
def taskTypeStr : TaskType → String
  | TaskType.object => "object"
  | TaskType.pose => "pose"

/-- The `JobStatus` union from `src/frontend/src/lib/types.ts`. -/
inductive JobStatus where
  | uploading
  | queued
  | running
  | succeeded
  | failed
deriving DecidableEq, Repr

/-- A JSON value as seen by the client after `JSON.parse`; the client only
ever inspects whether a value is a number (`typeof x === "number"`), so
compound values are collapsed into the `other` constructor. -/
inductive Jv where
  | null
  | boolVal (b : Bool)
  | numVal (x : Int)
  | strVal (s : String)
  | other
deriving DecidableEq, Repr

/-- The fields of the `JobOut` record from `src/frontend/src/lib/types.ts`
that the pages read (identifier and media metadata, lifecycle fields, the
optional error message and the artifact flags). -/
structure JobOut where
  id : String
  status : JobStatus
  task_type : TaskType
  updated_at : String
  progress : Nat
  filename : String
  content_type : String
  size_bytes : Nat
  conf : Option Int
  iou : Option Int
  imgsz : Option Int
  error_message : Option String
  has_result_json : Bool
  has_annotated_image : Bool
deriving DecidableEq, Repr

/-- Metadata of a selected `File` object as the upload page reads it:
`name`, `type` (the MIME content type, called `fileType` here) and
`size` in bytes. -/
structure FileMeta where
  name : String
  fileType : String
  size : Nat
deriving DecidableEq, Repr

/-! ## Video classification predicates (claim C10)

The pages use the JavaScript string built-ins `startsWith`, `endsWith`
and `toLowerCase`.  They are embedded here over the character list of a
string (Lean's own `String.startsWith` is an opaque runtime primitive),
so that they evaluate on concrete inputs. -/

/-- JavaScript `String.prototype.startsWith`. -/
def jsStartsWith (s pre : String) : Bool :=
  pre.data.isPrefixOf s.data

/-- JavaScript `String.prototype.endsWith`. -/
def jsEndsWith (s suffix : String) : Bool :=
  List.isSuffixOf suffix.data s.data

/-- JavaScript `String.prototype.toLowerCase` (ASCII letters; the
extension comparisons only involve ASCII). -/
def jsToLower (s : String) : String :=
  String.mk (s.data.map Char.toLower)

/-- The shared extension test: the lowercased name ends with `.mp4`,
`.mov` or `.avi` (both pages spell this test identically). -/
def hasVideoExt (name : String) : Bool :=
  let n := jsToLower name
  jsEndsWith n ".mp4" || jsEndsWith n ".mov" || jsEndsWith n ".avi"

/-- The `isVideo` memo of the upload page (`page.tsx` lines 29-34):
no file is not a video; a nonempty MIME type starting with `video/` wins;
otherwise the extension decides. -/
def isVideoHome (file : Option FileMeta) : Bool :=
  match file with
  | none => false
  | some f =>
    if (f.fileType != "") && jsStartsWith f.fileType "video/" then true
    else hasVideoExt f.name

/-- The `isVideo` memo of the job page (`jobs/[id]/page.tsx` lines 18-23):
the extension of `job?.filename || ""` is checked first, then the content
type `job?.content_type || ""`. -/
def isVideoJobPage (job : Option JobOut) : Bool :=
  let name := jsToLower (match job with | some j => j.filename | none => "")
  if jsEndsWith name ".mp4" || jsEndsWith name ".mov" || jsEndsWith name ".avi" then true
  else
    let ct := match job with | some j => j.content_type | none => ""
    jsStartsWith ct "video/"

/-! ## Upload form gating (claim C3) -/

/-- The size ceiling constant `MAX_BYTES` of `page.tsx` line 9. -/
def MAX_BYTES : Nat := 100 * 1024 * 1024

/-- The `canSubmit` memo of `page.tsx` lines 23-27. -/
def canSubmit (file : Option FileMeta) : Bool :=
  match file with
  | none => false
  | some f => if f.size > MAX_BYTES then false else true

/-- The `disabled` expression of the submit button, `page.tsx` line 133:
`!canSubmit || busy`. -/
def submitDisabled (file : Option FileMeta) (busy : Bool) : Bool :=
  !(canSubmit file) || busy

/-- The condition under which the `File too large (max 100MB).` message is
rendered, `page.tsx` lines 80-82. -/
def tooLargeShown (file : Option FileMeta) : Bool :=
  match file with
  | none => false
  | some f => f.size > MAX_BYTES

/-! ## API client (claims C6, C7) -/

/-- `DEFAULT_API_BASE` from `api.ts` line 3. -/
def DEFAULT_API_BASE : String := "http://127.0.0.1:8000"

/-- The `apiBase` function of `api.ts` lines 5-7: the environment variable
`NEXT_PUBLIC_API_BASE_URL` when set and nonempty (JavaScript `||` treats
the empty string as falsy), else the default. -/
def apiBase (env : Option String) : String :=
  match env with
  | none => DEFAULT_API_BASE
  | some s => if s = "" then DEFAULT_API_BASE else s

/-- One entry of a `FormData` body: either the uploaded file or a string
field. -/
inductive FormValue where
  | fileVal (f : FileMeta)
  | strVal (s : String)
deriving DecidableEq, Repr

/-- An outgoing HTTP request as the client assembles it. -/
structure Request where
  url : String
  method : String
  form : List (String × FormValue)
deriving DecidableEq, Repr

/-- The optional-parameter append of `createJob` (`api.ts` lines 19-21):
a field is appended exactly when the caller supplied a value
(`!== undefined`) that is not the empty string. -/
def appendOptField (k : String) (v : Option String) : List (String × FormValue) :=
  match v with
  | none => []
  | some s => if s = "" then [] else [(k, FormValue.strVal s)]

/-- The `FormData` body built by `createJob` (`api.ts` lines 16-21), in
append order: `file`, `task_type`, then `conf`, `iou`, `imgsz` when
supplied and nonempty. -/
def createJobForm (file : FileMeta) (taskType : TaskType)
    (conf iou imgsz : Option String) : List (String × FormValue) :=
  [("file", FormValue.fileVal file), ("task_type", FormValue.strVal (taskTypeStr taskType))]
    ++ appendOptField "conf" conf
    ++ appendOptField "iou" iou
    ++ appendOptField "imgsz" imgsz

/-- The request `createJob` issues (`api.ts` lines 23-26): a `POST` to
`apiBase() + "/api/jobs"` with the multipart body above. -/
def createJobRequest (env : Option String) (file : FileMeta) (taskType : TaskType)
    (conf iou imgsz : Option String) : Request :=
  { url := apiBase env ++ "/api/jobs"
    method := "POST"
    form := createJobForm file taskType conf iou imgsz }

/-- A fetch `Response` as the client reads it: the `ok` flag, the numeric
`status`, the body as text (read on the error path) and the body as parsed
JSON (read on the success path). -/
structure HttpResponse where
  ok : Bool
  status : Nat
  text : String
  json : Jv
deriving DecidableEq, Repr

/-- The response handling of `createJob` (`api.ts` lines 28-33): on a
non-ok response throw an `Error` carrying the status and body text, else
return the parsed JSON body. -/
def createJobHandle (res : HttpResponse) : Except String Jv :=
  if res.ok then Except.ok res.json
  else Except.error ("Create job failed (" ++ toString res.status ++ "): " ++ res.text)

/-- The response handling of `getJob` (`api.ts` lines 36-43). -/
def getJobHandle (res : HttpResponse) : Except String Jv :=
  if res.ok then Except.ok res.json
  else Except.error ("Get job failed (" ++ toString res.status ++ "): " ++ res.text)

/-- The response handling of `getJobResult` (`api.ts` lines 45-52). -/
def getJobResultHandle (res : HttpResponse) : Except String Jv :=
  if res.ok then Except.ok res.json
  else Except.error ("Get result failed (" ++ toString res.status ++ "): " ++ res.text)

/-! ## Upload submission (claim C3) -/

/-- Modelled from the spec: `createVideoJob` is imported by the upload
page from the API client module, but its definition is not among the
provided source files.  The spec describes job creation as one multipart
POST carrying the file, the task type and the optional numeric
parameters, so the video variant is modelled with the same form body at
a video-specific jobs path. -/
def createVideoJobRequest (env : Option String) (file : FileMeta) (taskType : TaskType)
    (conf iou imgsz : Option String) : Request :=
  { url := apiBase env ++ "/api/jobs/video"
    method := "POST"
    form := createJobForm file taskType conf iou imgsz }

/-- The `onSubmit` handler of the upload page (`page.tsx` lines 36-64):
without a file no request is issued; otherwise the job-creation request
is built by `createVideoJob` for video files and by `createJob`
otherwise, passing the three parameter strings from the inputs. -/
def onSubmitRequest (env : Option String) (file : Option FileMeta) (taskType : TaskType)
    (conf iou imgsz : String) : Option Request :=
  match file with
  | none => none
  | some f =>
    some (if isVideoHome (some f) then
            createVideoJobRequest env f taskType (some conf) (some iou) (some imgsz)
          else
            createJobRequest env f taskType (some conf) (some iou) (some imgsz))

/-- Form submission as the browser delivers it: the upload form's only
submit control is the Create-job button (`page.tsx` lines 131-137),
whose `disabled` attribute is `!canSubmit || busy`; a disabled sole
submit button blocks both click and implicit (Enter-key) submission, so
the `onSubmit` handler runs only while the button is enabled. -/
def formSubmitRequest (env : Option String) (file : Option FileMeta) (busy : Bool)
    (taskType : TaskType) (conf iou imgsz : String) : Option Request :=
  if submitDisabled file busy then none
  else onSubmitRequest env file taskType conf iou imgsz

/-! ## Job page polling (claim C2) -/

/-- The interval period, in milliseconds, of the `setInterval` call in
`jobs/[id]/page.tsx` line 67. -/
def POLL_INTERVAL_MS : Nat := 1000

/-- The state the job page keeps across `tick` runs: the React state
`job`, `result` and `error`, the effect-local `resultLoaded` flag, and
whether the polling interval is still installed. -/
structure PollState where
  job : Option JobOut
  result : Option Jv
  error : Option String
  resultLoaded : Bool
  intervalActive : Bool
deriving DecidableEq, Repr

/-- The error the job page derives from a fetched job record,
`jobs/[id]/page.tsx` line 43: `j.error_message || "Job failed"` for a
failed job (JavaScript `||` treats the empty string as falsy), null
otherwise. -/
def jobError (j : JobOut) : Option String :=
  if j.status = JobStatus.failed then
    some (match j.error_message with
          | some m => if m = "" then "Job failed" else m
          | none => "Job failed")
  else none

/-- One run of the `tick` function of `jobs/[id]/page.tsx` lines 38-64.
`jobResp` is the outcome of `getJob`, `resResp` the outcome of
`getJobResult` (consulted only on the branch that issues that request).
Returns the new state and whether `getJobResult` was requested. -/
def tick (jobResp : Except String JobOut) (resResp : Except String Jv)
    (s : PollState) : PollState × Bool :=
  match jobResp with
  | Except.error e => ({ s with error := some e }, false)
  | Except.ok j =>
    let s1 := { s with job := some j, error := jobError j }
    let p :=
      if j.status = JobStatus.succeeded ∧ s1.resultLoaded = false then
        match resResp with
        | Except.ok r =>
          ({ s1 with result := some r, resultLoaded := true, intervalActive := false },
           true)
        | Except.error e => ({ s1 with error := some e }, true)
      else (s1, false)
    let s3 :=
      if j.status = JobStatus.succeeded ∧ p.1.resultLoaded = true then
        { p.1 with intervalActive := false }
      else p.1
    (s3, p.2)

/-- The `showArtifacts` flag of `jobs/[id]/page.tsx` lines 15-16: the
last observed status is `succeeded`. -/
def showArtifacts (s : PollState) : Bool :=
  match s.job with
  | some j => j.status = JobStatus.succeeded
  | none => false

/-! ## Live page: WebSocket URL (claim C4) -/

/-- The URL scheme of the API base, as `new URL(base).protocol` exposes
it; only the https/non-https distinction matters to the code. -/
inductive Scheme where
  | http
  | https
deriving DecidableEq, Repr

/-- The result of `new URL(base)` on the API base string: its protocol
and its host (hostname plus port). -/
structure UrlParts where
  scheme : Scheme
  host : String
deriving DecidableEq, Repr

/-- The `wsBaseFromApiBase` function of `page.tsx` lines 155-159:
`wss:` when the API base uses `https:`, else `ws:`, followed by the host. -/
def wsBaseFromApiBase (u : UrlParts) : String :=
  (if u.scheme = Scheme.https then "wss:" else "ws:") ++ "//" ++ u.host

/-- The query-parameter list assembled by the `wsUrl` memo of `page.tsx`
lines 181-186: `task_type` always, then `conf`, `iou`, `imgsz` each added
exactly when its input string is nonempty. -/
def wsQueryParams (taskType : TaskType) (conf iou imgsz : String) :
    List (String × String) :=
  [("task_type", taskTypeStr taskType)]
    ++ (if conf ≠ "" then [("conf", conf)] else [])
    ++ (if iou ≠ "" then [("iou", iou)] else [])
    ++ (if imgsz ≠ "" then [("imgsz", imgsz)] else [])

/-- Serialization of the query parameters; `URLSearchParams.toString`
joins `key=value` pairs with `&` (its percent-escaping of individual
characters is a browser built-in and is modelled as the identity on the
parameter strings). -/
def renderQuery (ps : List (String × String)) : String :=
  String.intercalate "&" (ps.map (fun p => p.1 ++ "=" ++ p.2))

/-- The `wsUrl` memo of `page.tsx` lines 179-189: the WebSocket base, the
fixed path `/ws/live`, and the query string. -/
def wsUrl (u : UrlParts) (taskType : TaskType) (conf iou imgsz : String) : String :=
  wsBaseFromApiBase u ++ "/ws/live?" ++ renderQuery (wsQueryParams taskType conf iou imgsz)

/-! ## Live page: session state machine (claims C1, C5, C8, C9)

The `LivePage` component keeps its session state in refs and React state:
`runningRef`, `wsRef`, the `inFlight` local of `start`, and the rendered
state values.  Each event handler (`start`, `stop`, `ws.onopen`,
`ws.onmessage`, `ws.onerror`, `ws.onclose`, a queued `sendNext`, the
input `onChange` handlers, and the unmount cleanup) is embedded as a
state-to-state function; JavaScript's single-threaded event loop makes
each handler run atomically, so a session trace is a sequence of these
functions applied from the initial component state.  Ghost fields
(`framesSent`, `unanswered`, `closeCalls`) count the frames handed to
`WebSocket.send`, the frames sent but not yet answered, and the calls to
`WebSocket.close`, which the theorems observe. -/

/-- The `readyState` of a WebSocket, as far as the code compares it
(`=== WebSocket.OPEN`). -/
inductive WsState where
  | connecting
  | opened
  | closed
deriving DecidableEq, Repr

/-- The WebSocket object held in `wsRef.current`: the URL it was opened
with and its current ready state. -/
structure WsConn where
  url : String
  readyState : WsState
deriving DecidableEq, Repr

/-- The `runtime` object of a live reply message; its `inference_ms`
field may be absent or hold any JSON value. -/
structure RuntimeInfo where
  inference_ms : Option Jv
deriving DecidableEq, Repr

/-- A parsed live reply message, the shape `ws.onmessage` casts to
(`page.tsx` lines 319-324). -/
structure LiveMsg where
  task_type : String
  runtime : Option RuntimeInfo
  result : Jv
  annotated_jpeg_base64 : String
deriving DecidableEq, Repr

/-- The state of the `LivePage` component relevant to one live session. -/
structure LiveState where
  runningRef : Bool
  running : Bool
  connected : Bool
  ws : Option WsConn
  inFlight : Bool
  taskType : TaskType
  conf : String
  iou : String
  imgsz : String
  annotatedSrc : Option String
  inferenceMs : Option Int
  result : Option Jv
  error : Option String
  framesSent : Nat
  unanswered : Nat
  closeCalls : Nat
deriving DecidableEq, Repr

/-- The initial component state: the `useState` / `useRef` initializers
of `page.tsx` lines 162-177. -/
def initLive : LiveState :=
  { runningRef := false
    running := false
    connected := false
    ws := none
    inFlight := false
    taskType := TaskType.object
    conf := "0.25"
    iou := "0.7"
    imgsz := "640"
    annotatedSrc := none
    inferenceMs := none
    result := none
    error := none
    framesSent := 0
    unanswered := 0
    closeCalls := 0 }

/-- The `stop` function of `page.tsx` lines 265-278: clear the running
flags, and when a socket is held, close it (errors swallowed) and null
the reference. -/
def stop (s : LiveState) : LiveState :=
  let s1 := { s with runningRef := false, running := false, connected := false }
  match s1.ws with
  | none => s1
  | some _ => { s1 with ws := none, closeCalls := s1.closeCalls + 1 }

/-- The outcome of one `captureJpegBytes()` call inside `sendNext`:
either a frame was produced, or the capture threw with a message. -/
inductive CaptureOutcome where
  | ok
  | err (msg : String)
deriving DecidableEq, Repr

/-- The `sendNext` closure of `page.tsx` lines 297-310: return unless
`runningRef` is set, a socket is held and OPEN, and no frame is in
flight; then mark a frame in flight and send the captured JPEG; when the
capture throws, record the error and `stop()`. -/
def sendNext (cap : CaptureOutcome) (s : LiveState) : LiveState :=
  if s.runningRef = false then s
  else match s.ws with
  | none => s
  | some w =>
    if w.readyState ≠ WsState.opened then s
    else if s.inFlight then s
    else match cap with
      | CaptureOutcome.ok =>
          { s with inFlight := true, framesSent := s.framesSent + 1,
                   unanswered := s.unanswered + 1 }
      | CaptureOutcome.err msg =>
          stop { s with inFlight := true, error := some msg }

/-- The `start` function of `page.tsx` lines 280-295: clear the rendered
state, return when already running, else set the running flags, open a
WebSocket on the current `wsUrl`, and reset the `inFlight` local. -/
def start (u : UrlParts) (s : LiveState) : LiveState :=
  let s1 := { s with error := none, result := none, annotatedSrc := none,
                     inferenceMs := none }
  if s1.runningRef then s1
  else
    { s1 with runningRef := true, running := true, inFlight := false,
              unanswered := 0,
              ws := some { url := wsUrl u s1.taskType s1.conf s1.iou s1.imgsz,
                           readyState := WsState.connecting } }

/-- The `ws.onopen` handler of `page.tsx` lines 312-315: the socket
reaches the OPEN state, `connected` is set, and `sendNext` runs. -/
def onopen (cap : CaptureOutcome) (s : LiveState) : LiveState :=
  sendNext cap
    { s with connected := true,
             ws := s.ws.map (fun w => { w with readyState := WsState.opened }) }

/-- Extraction of the inference time from a reply message, mirroring
`typeof msg.runtime?.inference_ms === "number"` of `page.tsx` line 327. -/
def inferenceMsOf (msg : LiveMsg) : Option Int :=
  match msg.runtime with
  | some r =>
    match r.inference_ms with
    | some (Jv.numVal x) => some x
    | _ => none
  | none => none

/-- The `ws.onmessage` handler of `page.tsx` lines 317-336.  A parse
failure (`m = none`, with the thrown message `errText`) records the error
and stops.  A parsed message stores the result, the inference time when
numeric, and the data URL of the annotated JPEG, then clears `inFlight`
and decrements the unanswered count; the `setTimeout` that queues the
next `sendNext` is a separate later event of the trace. -/
def onmessage (m : Option LiveMsg) (errText : String) (s : LiveState) : LiveState :=
  match m with
  | none => stop { s with error := some errText }
  | some msg =>
    { s with result := some msg.result
             inferenceMs := inferenceMsOf msg
             annotatedSrc := some ("data:image/jpeg;base64," ++ msg.annotated_jpeg_base64)
             inFlight := false
             unanswered := s.unanswered - 1 }

/-- The `ws.onerror` handler of `page.tsx` lines 338-341. -/
def onerror (s : LiveState) : LiveState :=
  stop { s with error := some "WebSocket error" }

/-- The `ws.onclose` handler of `page.tsx` lines 343-347: the socket has
reached the closed state; the handler clears the flags but leaves
`wsRef.current` set. -/
def onclose (s : LiveState) : LiveState :=
  { s with connected := false, running := false, runningRef := false,
           ws := s.ws.map (fun w => { w with readyState := WsState.closed }) }

/-- The unmount cleanup of the second `useEffect` of `page.tsx` lines
222-233: when a socket is held, close it (errors swallowed) and null the
reference. -/
def unmountWsCleanup (s : LiveState) : LiveState :=
  match s.ws with
  | none => s
  | some _ => { s with ws := none, closeCalls := s.closeCalls + 1 }

/-- The `onChange` handler of the Task select (`page.tsx` lines 367-375);
the control carries `disabled = running`, so a change event reaches the
handler only while the session is not running. -/
def editTaskType (t : TaskType) (s : LiveState) : LiveState :=
  if s.running then s else { s with taskType := t }

/-- The `onChange` handler of the conf input (`page.tsx` lines 378-387),
disabled while running. -/
def editConf (v : String) (s : LiveState) : LiveState :=
  if s.running then s else { s with conf := v }

/-- The `onChange` handler of the iou input (`page.tsx` lines 389-398),
disabled while running. -/
def editIou (v : String) (s : LiveState) : LiveState :=
  if s.running then s else { s with iou := v }

/-- The `onChange` handler of the imgsz input (`page.tsx` lines 400-409),
disabled while running. -/
def editImgsz (v : String) (s : LiveState) : LiveState :=
  if s.running then s else { s with imgsz := v }

/-- One event the `LivePage` component can process. -/
inductive LiveEvent where
  | editTaskE (t : TaskType)
  | editConfE (v : String)
  | editIouE (v : String)
  | editImgszE (v : String)
  | startE (u : UrlParts)
  | openE (cap : CaptureOutcome)
  | messageE (m : Option LiveMsg) (errText : String)
  | sendE (cap : CaptureOutcome)
  | errorE
  | closeE
  | stopE
  | unmountE
deriving Repr

/-- The handler an event runs. -/
def applyEvent : LiveEvent → LiveState → LiveState
  | LiveEvent.editTaskE t, s => editTaskType t s
  | LiveEvent.editConfE v, s => editConf v s
  | LiveEvent.editIouE v, s => editIou v s
  | LiveEvent.editImgszE v, s => editImgsz v s
  | LiveEvent.startE u, s => start u s
  | LiveEvent.openE cap, s => onopen cap s
  | LiveEvent.messageE m errText, s => onmessage m errText s
  | LiveEvent.sendE cap, s => sendNext cap s
  | LiveEvent.errorE, s => onerror s
  | LiveEvent.closeE, s => onclose s
  | LiveEvent.stopE, s => stop s
  | LiveEvent.unmountE, s => unmountWsCleanup s

/-- One step of the live page: some event is processed. -/
inductive LiveStep : LiveState → LiveState → Prop where
  | step (e : LiveEvent) (s : LiveState) : LiveStep s (applyEvent e s)

/-- The states the live page can reach from its initial state. -/
inductive ReachableLive : LiveState → Prop where
  | init : ReachableLive initLive
  | step {s s' : LiveState} : ReachableLive s → LiveStep s s' → ReachableLive s'

theorem stop_inFlight (s : LiveState) : (stop s).inFlight = s.inFlight := by
  cases hws : s.ws <;> simp [stop, hws]

theorem stop_unanswered (s : LiveState) : (stop s).unanswered = s.unanswered := by
  cases hws : s.ws <;> simp [stop, hws]

theorem stop_framesSent (s : LiveState) : (stop s).framesSent = s.framesSent := by
  cases hws : s.ws <;> simp [stop, hws]

theorem stop_ws (s : LiveState) : (stop s).ws = none := by
  cases hws : s.ws <;> simp [stop, hws]

theorem stop_runningRef (s : LiveState) : (stop s).runningRef = false := by
  cases hws : s.ws <;> simp [stop, hws]

theorem sendNext_of_not_running (cap : CaptureOutcome) (s : LiveState)
    (h : s.runningRef = false) : sendNext cap s = s := by
  unfold sendNext
  simp [h]

theorem sendNext_of_ws_none (cap : CaptureOutcome) (s : LiveState)
    (h : s.ws = none) : sendNext cap s = s := by
  unfold sendNext
  split
  · rfl
  · rw [h]

theorem sendNext_of_ws_not_open (cap : CaptureOutcome) (s : LiveState)
    (w : WsConn) (hws : s.ws = some w) (h : w.readyState ≠ WsState.opened) :
    sendNext cap s = s := by
  unfold sendNext
  split
  · rfl
  · split
    · rfl
    · next w2 hws2 =>
      rw [hws] at hws2
      cases hws2
      simp [h]

theorem stop_idem (s : LiveState) : stop (stop s) = stop s := by
  cases hws : s.ws <;> simp [stop, hws]

theorem unmountWsCleanup_ws (s : LiveState) : (unmountWsCleanup s).ws = none := by
  cases hws : s.ws <;> simp [unmountWsCleanup, hws]

theorem unmountWsCleanup_idem (s : LiveState) :
    unmountWsCleanup (unmountWsCleanup s) = unmountWsCleanup s := by
  cases hws : s.ws <;> simp [unmountWsCleanup, hws]

/-- A concrete API base for witness states. -/
def demoUrl : UrlParts := { scheme := Scheme.http, host := "127.0.0.1:8000" }

/-- The live page state after clicking Start. -/
def liveS1 : LiveState := applyEvent (LiveEvent.startE demoUrl) initLive

/-- The live page state after the socket opened and the first frame was
sent by `onopen`. -/
def liveS2 : LiveState := applyEvent (LiveEvent.openE CaptureOutcome.ok) liveS1

theorem liveS1_reachable : ReachableLive liveS1 :=
  ReachableLive.step ReachableLive.init
    (LiveStep.step (LiveEvent.startE demoUrl) initLive)

/-- Claim C9: session teardown.  `sendNext` checks `runningRef` and the
socket's ready state first and sends nothing once the session stopped,
the socket left the OPEN state, or the reference was cleared; `stop` and
the unmount cleanup close and null the socket reference and are
idempotent, so the socket is closed and cleared at most once; the
`onclose` handler ends the session so no frame is sent afterwards. -/
theorem live_session_teardown (s : LiveState) (cap : CaptureOutcome) :
    (s.runningRef = false → sendNext cap s = s) ∧
    (s.ws = none → sendNext cap s = s) ∧
    (∀ w, s.ws = some w → w.readyState ≠ WsState.opened → sendNext cap s = s) ∧
    (stop s).runningRef = false ∧ (stop s).ws = none ∧
    sendNext cap (stop s) = stop s ∧
    stop (stop s) = stop s ∧
    (unmountWsCleanup s).ws = none ∧
    sendNext cap (unmountWsCleanup s) = unmountWsCleanup s ∧
    unmountWsCleanup (unmountWsCleanup s) = unmountWsCleanup s ∧
    (onclose s).runningRef = false ∧
    sendNext cap (onclose s) = onclose s := by
  refine ⟨sendNext_of_not_running cap s, sendNext_of_ws_none cap s,
    fun w hws h => sendNext_of_ws_not_open cap s w hws h,
    stop_runningRef s, stop_ws s, ?_, stop_idem s,
    unmountWsCleanup_ws s, ?_, unmountWsCleanup_idem s, rfl, ?_⟩
  · exact sendNext_of_not_running cap (stop s) (stop_runningRef s)
  · exact sendNext_of_ws_none cap (unmountWsCleanup s) (unmountWsCleanup_ws s)
  · exact sendNext_of_not_running cap (onclose s) rfl

/-- Witness for C9 at the concrete state `liveS2`: after `stop`, a queued
`sendNext` leaves the state unchanged. -/
theorem live_session_teardown_witness :
    sendNext CaptureOutcome.ok (stop liveS2) = stop liveS2 :=
  (live_session_teardown liveS2 CaptureOutcome.ok).2.2.2.2.2.1

/-- Claim C4: the WebSocket URL.  `task_type` is always among the query
parameters; `conf`, `iou` and `imgsz` are present exactly when their
input string is nonempty; the URL is the fixed path `/ws/live` on the
API host, with scheme `wss:` for an https API base and `ws:` otherwise. -/
theorem ws_connect_parameters (u : UrlParts) (taskType : TaskType)
    (conf iou imgsz : String) :
    (wsQueryParams taskType conf iou imgsz).lookup "task_type"
        = some (taskTypeStr taskType) ∧
    (((wsQueryParams taskType conf iou imgsz).lookup "conf").isSome ↔ conf ≠ "") ∧
    (conf ≠ "" → (wsQueryParams taskType conf iou imgsz).lookup "conf" = some conf) ∧
    (((wsQueryParams taskType conf iou imgsz).lookup "iou").isSome ↔ iou ≠ "") ∧
    (iou ≠ "" → (wsQueryParams taskType conf iou imgsz).lookup "iou" = some iou) ∧
    (((wsQueryParams taskType conf iou imgsz).lookup "imgsz").isSome ↔ imgsz ≠ "") ∧
    (imgsz ≠ "" → (wsQueryParams taskType conf iou imgsz).lookup "imgsz" = some imgsz) ∧
    (u.scheme = Scheme.https →
      wsUrl u taskType conf iou imgsz =
        "wss://" ++ u.host ++ "/ws/live?"
          ++ renderQuery (wsQueryParams taskType conf iou imgsz)) ∧
    (u.scheme = Scheme.http →
      wsUrl u taskType conf iou imgsz =
        "ws://" ++ u.host ++ "/ws/live?"
          ++ renderQuery (wsQueryParams taskType conf iou imgsz)) := by
  cases taskType <;>
    by_cases hc : conf = "" <;> by_cases hi : iou = "" <;> by_cases hm : imgsz = "" <;>
      refine ⟨by simp [wsQueryParams, List.lookup, hc, hi, hm, taskTypeStr],
              by simp [wsQueryParams, List.lookup, hc, hi, hm],
              fun h => by
                first
                | exact absurd hc h
                | simp [wsQueryParams, List.lookup, hc, hi, hm],
              by simp [wsQueryParams, List.lookup, hc, hi, hm],
              fun h => by
                first
                | exact absurd hi h
                | simp [wsQueryParams, List.lookup, hc, hi, hm],
              by simp [wsQueryParams, List.lookup, hc, hi, hm],
              fun h => by
                first
                | exact absurd hm h
                | simp [wsQueryParams, List.lookup, hc, hi, hm],
              fun h => by simp only [wsUrl, wsBaseFromApiBase, h]; rfl,
              fun h => by simp only [wsUrl, wsBaseFromApiBase, h]; rfl⟩

/-- Witness for C4 at a concrete input with `conf` empty: `conf` is
omitted, `task_type` and the others are present, and the scheme is `ws:`. -/
theorem ws_connect_parameters_witness :
    (wsQueryParams TaskType.pose "" "0.7" "640").lookup "task_type" = some "pose" ∧
    ((wsQueryParams TaskType.pose "" "0.7" "640").lookup "conf").isSome = false ∧
    wsUrl demoUrl TaskType.pose "" "0.7" "640" =
      "ws://127.0.0.1:8000/ws/live?task_type=pose&iou=0.7&imgsz=640" := by
  have h := ws_connect_parameters demoUrl TaskType.pose "" "0.7" "640"
  refine ⟨h.1, by decide, ?_⟩
  have h9 := h.2.2.2.2.2.2.2.2 rfl
  rw [h9]
  rfl

/-- Claim C5: streaming reply handling.  A parsed reply stores the
result, stores the inference time exactly when `runtime.inference_ms` is
a number (null otherwise), sets the annotated image to the
`data:image/jpeg;base64` URL of the payload, clears the in-flight flag,
and hands no frame to the socket itself — the next `sendNext` is a
separate queued event. -/
theorem live_reply_handling (s : LiveState) (msg : LiveMsg) (errText : String) :
    (onmessage (some msg) errText s).result = some msg.result ∧
    (∀ x : Int, (onmessage (some msg) errText s).inferenceMs = some x ↔
      (∃ r, msg.runtime = some r ∧ r.inference_ms = some (Jv.numVal x))) ∧
    ((∀ r, msg.runtime = some r → ∀ v, r.inference_ms = some v →
        (∀ x : Int, v ≠ Jv.numVal x) → (onmessage (some msg) errText s).inferenceMs = none)) ∧
    (msg.runtime = none → (onmessage (some msg) errText s).inferenceMs = none) ∧
    (onmessage (some msg) errText s).annotatedSrc =
      some ("data:image/jpeg;base64," ++ msg.annotated_jpeg_base64) ∧
    (onmessage (some msg) errText s).inFlight = false ∧
    (onmessage (some msg) errText s).framesSent = s.framesSent := by
  refine ⟨rfl, ?_, ?_, ?_, rfl, rfl, rfl⟩
  · intro x
    simp only [onmessage]
    unfold inferenceMsOf
    cases hr : msg.runtime with
    | none => simp [hr]
    | some r =>
      cases hi : r.inference_ms with
      | none => simp [hr, hi]
      | some jv => cases jv <;> simp [hr, hi]
  · intro r hr v hv hnum
    simp only [onmessage]
    unfold inferenceMsOf
    simp only [hr, hv]
    cases v with
    | numVal x => exact absurd rfl (hnum x)
    | null => rfl
    | boolVal b => rfl
    | strVal s => rfl
    | other => rfl
  · intro hr
    simp only [onmessage]
    unfold inferenceMsOf
    rw [hr]

/-- Witness for C5 at a concrete reply with a numeric inference time. -/
theorem live_reply_handling_witness :
    (onmessage (some { task_type := "object",
                       runtime := some { inference_ms := some (Jv.numVal 12) },
                       result := Jv.other,
                       annotated_jpeg_base64 := "QUJD" }) "err" liveS2).inferenceMs
        = some 12 ∧
    (onmessage (some { task_type := "object",
                       runtime := some { inference_ms := some (Jv.numVal 12) },
                       result := Jv.other,
                       annotated_jpeg_base64 := "QUJD" }) "err" liveS2).annotatedSrc
        = some "data:image/jpeg;base64,QUJD" := by
  have h := live_reply_handling liveS2
    { task_type := "object",
      runtime := some { inference_ms := some (Jv.numVal 12) },
      result := Jv.other,
      annotated_jpeg_base64 := "QUJD" } "err"
  refine ⟨(h.2.1 12).mpr ⟨_, rfl, rfl⟩, by rw [h.2.2.2.2.1]; rfl⟩

/-! ## Claim C8: session parameter immutability -/

theorem stop_running (s : LiveState) : (stop s).running = false := by
  cases hws : s.ws <;> simp [stop, hws]

theorem editTaskType_noop (t : TaskType) {s : LiveState} (h : s.running = true) :
    editTaskType t s = s := by
  simp [editTaskType, h]

theorem editConf_noop (v : String) {s : LiveState} (h : s.running = true) :
    editConf v s = s := by
  simp [editConf, h]

theorem editIou_noop (v : String) {s : LiveState} (h : s.running = true) :
    editIou v s = s := by
  simp [editIou, h]

theorem editImgsz_noop (v : String) {s : LiveState} (h : s.running = true) :
    editImgsz v s = s := by
  simp [editImgsz, h]

theorem runInv_sendNext (cap : CaptureOutcome) {s : LiveState}
    (h : s.running = s.runningRef) :
    (sendNext cap s).running = (sendNext cap s).runningRef := by
  unfold sendNext
  split
  · exact h
  · split
    · exact h
    · next w hws =>
      split
      · exact h
      · split
        · exact h
        · cases cap with
          | ok => exact h
          | err msg => rw [stop_running, stop_runningRef]

theorem runInv_applyEvent (e : LiveEvent) {s : LiveState}
    (h : s.running = s.runningRef) :
    (applyEvent e s).running = (applyEvent e s).runningRef := by
  cases e with
  | editTaskE t =>
    simp only [applyEvent, editTaskType]
    split
    · exact h
    · exact h
  | editConfE v =>
    simp only [applyEvent, editConf]
    split
    · exact h
    · exact h
  | editIouE v =>
    simp only [applyEvent, editIou]
    split
    · exact h
    · exact h
  | editImgszE v =>
    simp only [applyEvent, editImgsz]
    split
    · exact h
    · exact h
  | startE u =>
    simp only [applyEvent, start]
    split
    · exact h
    · rfl
  | openE cap =>
    exact runInv_sendNext cap h
  | messageE m errText =>
    cases m with
    | none => rw [show applyEvent (LiveEvent.messageE none errText) s
        = stop { s with error := some errText } from rfl, stop_running, stop_runningRef]
    | some msg => exact h
  | sendE cap =>
    exact runInv_sendNext cap h
  | errorE =>
    rw [show applyEvent LiveEvent.errorE s
      = stop { s with error := some "WebSocket error" } from rfl, stop_running, stop_runningRef]
  | closeE =>
    rfl
  | stopE =>
    rw [show applyEvent LiveEvent.stopE s = stop s from rfl, stop_running, stop_runningRef]
  | unmountE =>
    simp only [applyEvent, unmountWsCleanup]
    cases hws : s.ws with
    | none => exact h
    | some w => exact h

theorem runInv_reachable {s : LiveState} (h : ReachableLive s) :
    s.running = s.runningRef := by
  induction h with
  | init => rfl
  | step _ hstep ih =>
    cases hstep with
    | step e s => exact runInv_applyEvent e ih

theorem sendNext_ws_cases (cap : CaptureOutcome) (s : LiveState) :
    (sendNext cap s).ws = s.ws ∨ (sendNext cap s).ws = none := by
  unfold sendNext
  split
  · exact Or.inl rfl
  · split
    · exact Or.inl rfl
    · next w hws =>
      split
      · exact Or.inl rfl
      · split
        · exact Or.inl rfl
        · cases cap with
          | ok => exact Or.inl rfl
          | err msg => exact Or.inr (stop_ws _)

theorem applyEvent_url_preserved (e : LiveEvent) (s : LiveState)
    (hrun : s.runningRef = true) (hruns : s.running = true) :
    ∀ w', (applyEvent e s).ws = some w' → ∃ w, s.ws = some w ∧ w'.url = w.url := by
  cases e with
  | editTaskE t =>
    intro w' h
    rw [show applyEvent (LiveEvent.editTaskE t) s = editTaskType t s from rfl,
        editTaskType_noop t hruns] at h
    exact ⟨w', h, rfl⟩
  | editConfE v =>
    intro w' h
    rw [show applyEvent (LiveEvent.editConfE v) s = editConf v s from rfl,
        editConf_noop v hruns] at h
    exact ⟨w', h, rfl⟩
  | editIouE v =>
    intro w' h
    rw [show applyEvent (LiveEvent.editIouE v) s = editIou v s from rfl,
        editIou_noop v hruns] at h
    exact ⟨w', h, rfl⟩
  | editImgszE v =>
    intro w' h
    rw [show applyEvent (LiveEvent.editImgszE v) s = editImgsz v s from rfl,
        editImgsz_noop v hruns] at h
    exact ⟨w', h, rfl⟩
  | startE u =>
    intro w' h
    simp only [applyEvent, start, hrun, if_true] at h
    exact ⟨w', h, rfl⟩
  | openE cap =>
    intro w' h
    simp only [applyEvent, onopen] at h
    rcases sendNext_ws_cases cap
        { s with connected := true,
                 ws := s.ws.map (fun w => { w with readyState := WsState.opened }) }
      with hc | hc
    · rw [hc] at h
      cases hws : s.ws with
      | none => rw [hws] at h; simp at h
      | some w =>
        rw [hws] at h
        simp only [Option.map_some'] at h
        have h2 : ({ w with readyState := WsState.opened } : WsConn) = w' :=
          Option.some.inj h
        exact ⟨w, rfl, by rw [← h2]⟩
    · rw [hc] at h
      cases h
  | messageE m errText =>
    intro w' h
    cases m with
    | none =>
      rw [show applyEvent (LiveEvent.messageE none errText) s
          = stop { s with error := some errText } from rfl, stop_ws] at h
      cases h
    | some msg =>
      exact ⟨w', h, rfl⟩
  | sendE cap =>
    intro w' h
    rcases sendNext_ws_cases cap s with hc | hc
    · rw [show applyEvent (LiveEvent.sendE cap) s = sendNext cap s from rfl, hc] at h
      exact ⟨w', h, rfl⟩
    · rw [show applyEvent (LiveEvent.sendE cap) s = sendNext cap s from rfl, hc] at h
      cases h
  | errorE =>
    intro w' h
    rw [show applyEvent LiveEvent.errorE s
        = stop { s with error := some "WebSocket error" } from rfl, stop_ws] at h
    cases h
  | closeE =>
    intro w' h
    simp only [applyEvent, onclose] at h
    cases hws : s.ws with
    | none => rw [hws] at h; simp at h
    | some w =>
      rw [hws] at h
      simp only [Option.map_some'] at h
      have h2 : ({ w with readyState := WsState.closed } : WsConn) = w' :=
        Option.some.inj h
      exact ⟨w, rfl, by rw [← h2]⟩
  | stopE =>
    intro w' h
    rw [show applyEvent LiveEvent.stopE s = stop s from rfl, stop_ws] at h
    cases h
  | unmountE =>
    intro w' h
    rw [show applyEvent LiveEvent.unmountE s = unmountWsCleanup s from rfl,
        unmountWsCleanup_ws] at h
    cases h

/-- Claim C8: session parameter immutability.  While a session runs, the
four parameter controls are disabled so their change handlers leave the
state unchanged; every step from a running state either keeps the held
socket (with its URL, and hence the connect-time parameters, unchanged)
or drops it, never replaces it; and `start` from a non-running state
captures the URL built from the parameters at that moment. -/
theorem live_session_params_immutable (s s' : LiveState)
    (hr : ReachableLive s) (hrun : s.runningRef = true) (hstep : LiveStep s s') :
    (∀ t, editTaskType t s = s) ∧
    (∀ v, editConf v s = s ∧ editIou v s = s ∧ editImgsz v s = s) ∧
    (∀ w', s'.ws = some w' → ∃ w, s.ws = some w ∧ w'.url = w.url) ∧
    (∀ u s0, s0.runningRef = false →
      (start u s0).ws =
        some { url := wsUrl u s0.taskType s0.conf s0.iou s0.imgsz,
               readyState := WsState.connecting }) := by
  have hruns : s.running = true := by rw [runInv_reachable hr]; exact hrun
  refine ⟨fun t => editTaskType_noop t hruns,
          fun v => ⟨editConf_noop v hruns, editIou_noop v hruns, editImgsz_noop v hruns⟩,
          ?_, ?_⟩
  · cases hstep with
    | step e s => exact applyEvent_url_preserved e s hrun hruns
  · intro u s0 h0
    simp [start, h0]

/-- Witness for C8 at the concrete running state `liveS1`, under a queued
`sendNext` step: the task selector's change handler is a no-op. -/
theorem live_session_params_immutable_witness :
    liveS1.runningRef = true ∧ editTaskType TaskType.pose liveS1 = liveS1 :=
  ⟨by decide,
   (live_session_params_immutable liveS1
      (applyEvent (LiveEvent.sendE CaptureOutcome.ok) liveS1) liveS1_reachable
      (by decide) (LiveStep.step (LiveEvent.sendE CaptureOutcome.ok) liveS1)).1
     TaskType.pose⟩

/-- Claim C3: size ceiling.  For a selected file larger than
`100 * 1024 * 1024` bytes, `canSubmit` is false, the submit button is
disabled, the too-large message is shown, and no job-creation request is
issued by form submission. -/
theorem upload_size_ceiling (env : Option String) (f : FileMeta) (busy : Bool)
    (taskType : TaskType) (conf iou imgsz : String) (h : f.size > MAX_BYTES) :
    canSubmit (some f) = false ∧
    submitDisabled (some f) busy = true ∧
    tooLargeShown (some f) = true ∧
    formSubmitRequest env (some f) busy taskType conf iou imgsz = none := by
  have hcan : canSubmit (some f) = false := by simp [canSubmit, h]
  refine ⟨hcan, by simp [submitDisabled, hcan], by simp [tooLargeShown, h],
          by simp [formSubmitRequest, submitDisabled, hcan]⟩

/-- A concrete file one byte over the ceiling. -/
def bigFile : FileMeta :=
  { name := "clip.mp4", fileType := "video/mp4", size := 104857601 }

/-- Witness for C3 at the concrete oversized file `bigFile`. -/
theorem upload_size_ceiling_witness :
    bigFile.size > MAX_BYTES ∧
    (canSubmit (some bigFile) = false ∧
     submitDisabled (some bigFile) false = true ∧
     tooLargeShown (some bigFile) = true ∧
     formSubmitRequest none (some bigFile) false TaskType.object "0.25" "0.7" "640"
       = none) :=
  ⟨by decide,
   upload_size_ceiling none bigFile false TaskType.object "0.25" "0.7" "640" (by decide)⟩

/-- Membership in the optional-field append: an entry is present exactly
when the caller supplied a nonempty value. -/
theorem mem_appendOptField (k : String) (v : Option String) (k2 : String)
    (val : FormValue) :
    ((k2, val) ∈ appendOptField k v ↔
      (k2 = k ∧ ∃ c, v = some c ∧ c ≠ "" ∧ val = FormValue.strVal c)) := by
  cases v with
  | none => simp [appendOptField]
  | some s =>
    by_cases hs : s = ""
    · subst hs; simp [appendOptField]
    · simp [appendOptField, hs, and_comm]

/-- Claim C6: job creation request shape.  `createJob` issues a `POST`
to `apiBase() + "/api/jobs"` whose multipart body holds exactly the
`file` field, the `task_type` field, and each of `conf`, `iou`, `imgsz`
exactly when the caller supplied a value that is neither undefined nor
the empty string. -/
theorem createJob_request_shape (env : Option String) (file : FileMeta)
    (taskType : TaskType) (conf iou imgsz : Option String) :
    (createJobRequest env file taskType conf iou imgsz).method = "POST" ∧
    (createJobRequest env file taskType conf iou imgsz).url = apiBase env ++ "/api/jobs" ∧
    ∀ k val, ((k, val) ∈ (createJobRequest env file taskType conf iou imgsz).form ↔
      ((k = "file" ∧ val = FormValue.fileVal file) ∨
       (k = "task_type" ∧ val = FormValue.strVal (taskTypeStr taskType)) ∨
       (k = "conf" ∧ ∃ c, conf = some c ∧ c ≠ "" ∧ val = FormValue.strVal c) ∨
       (k = "iou" ∧ ∃ c, iou = some c ∧ c ≠ "" ∧ val = FormValue.strVal c) ∨
       (k = "imgsz" ∧ ∃ c, imgsz = some c ∧ c ≠ "" ∧ val = FormValue.strVal c))) := by
  refine ⟨rfl, rfl, ?_⟩
  intro k val
  simp only [createJobRequest, createJobForm, List.append_assoc, List.mem_append,
    List.mem_cons, List.not_mem_nil, or_false, Prod.mk.injEq, mem_appendOptField,
    or_assoc]

/-- A small concrete upload for witnesses. -/
def demoFile : FileMeta :=
  { name := "cat.jpg", fileType := "image/jpeg", size := 5000 }

/-- Witness for C6 at a concrete call with `conf` supplied, `iou`
supplied empty and `imgsz` not supplied: only `conf` of the three
optionals is in the body. -/
theorem createJob_request_shape_witness :
    (createJobRequest none demoFile TaskType.object (some "0.25") (some "") none).method
        = "POST" ∧
    (createJobRequest none demoFile TaskType.object (some "0.25") (some "") none).url
        = "http://127.0.0.1:8000/api/jobs" ∧
    ("conf", FormValue.strVal "0.25")
        ∈ (createJobRequest none demoFile TaskType.object (some "0.25") (some "") none).form ∧
    (∀ v, ("iou", v)
        ∉ (createJobRequest none demoFile TaskType.object (some "0.25") (some "") none).form) ∧
    (∀ v, ("imgsz", v)
        ∉ (createJobRequest none demoFile TaskType.object (some "0.25") (some "") none).form) := by
  have h := createJob_request_shape none demoFile TaskType.object (some "0.25") (some "") none
  refine ⟨h.1, h.2.1, ?_, ?_, ?_⟩
  · exact (h.2.2 "conf" (FormValue.strVal "0.25")).mpr
      (Or.inr (Or.inr (Or.inl ⟨rfl, "0.25", rfl, by decide, rfl⟩)))
  · intro v hv
    rcases (h.2.2 "iou" v).mp hv with ⟨hk, _⟩ | ⟨hk, _⟩ | ⟨hk, _⟩ | ⟨_, c, hc, hne, _⟩ | ⟨hk, _⟩
    · exact absurd hk (by decide)
    · exact absurd hk (by decide)
    · exact absurd hk (by decide)
    · exact hne (Option.some.inj hc.symm)
    · exact absurd hk (by decide)
  · intro v hv
    rcases (h.2.2 "imgsz" v).mp hv with ⟨hk, _⟩ | ⟨hk, _⟩ | ⟨hk, _⟩ | ⟨hk, _⟩ | ⟨_, c, hc, _, _⟩
    · exact absurd hk (by decide)
    · exact absurd hk (by decide)
    · exact absurd hk (by decide)
    · exact absurd hk (by decide)
    · exact Option.noConfusion hc

/-- Claim C7: API-client error propagation.  Each of `createJob`,
`getJob` and `getJobResult` returns the parsed JSON body when the
response is ok and otherwise throws an `Error` whose message carries the
HTTP status code and the response text; a non-ok response never yields a
result value. -/
theorem api_client_error_propagation (res : HttpResponse) :
    (res.ok = true →
      createJobHandle res = Except.ok res.json ∧
      getJobHandle res = Except.ok res.json ∧
      getJobResultHandle res = Except.ok res.json) ∧
    (res.ok = false →
      createJobHandle res =
        Except.error ("Create job failed (" ++ toString res.status ++ "): " ++ res.text) ∧
      getJobHandle res =
        Except.error ("Get job failed (" ++ toString res.status ++ "): " ++ res.text) ∧
      getJobResultHandle res =
        Except.error ("Get result failed (" ++ toString res.status ++ "): " ++ res.text) ∧
      (∀ v, createJobHandle res ≠ Except.ok v) ∧
      (∀ v, getJobHandle res ≠ Except.ok v) ∧
      (∀ v, getJobResultHandle res ≠ Except.ok v)) := by
  constructor
  · intro h
    simp [createJobHandle, getJobHandle, getJobResultHandle, h]
  · intro h
    simp [createJobHandle, getJobHandle, getJobResultHandle, h]

/-- Witness for C7 at a concrete 404 response. -/
theorem api_client_error_propagation_witness :
    createJobHandle { ok := false, status := 404, text := "Not Found", json := Jv.null }
        = Except.error "Create job failed (404): Not Found" ∧
    getJobHandle { ok := false, status := 404, text := "Not Found", json := Jv.null }
        = Except.error "Get job failed (404): Not Found" ∧
    createJobHandle { ok := true, status := 200, text := "", json := Jv.other }
        = Except.ok Jv.other := by
  have h := (api_client_error_propagation
    { ok := false, status := 404, text := "Not Found", json := Jv.null }).2 rfl
  have h2 := (api_client_error_propagation
    { ok := true, status := 200, text := "", json := Jv.other }).1 rfl
  exact ⟨h.1.trans (by rfl), h.2.1.trans (by rfl), h2.1⟩

/-- Unfolding of `showArtifacts`: it is true exactly on a stored job in
the `succeeded` status. -/
theorem showArtifacts_eq_true {s : PollState} (h : showArtifacts s = true) :
    ∃ j, s.job = some j ∧ j.status = JobStatus.succeeded := by
  unfold showArtifacts at h
  cases hj : s.job with
  | none => rw [hj] at h; cases h
  | some j =>
    rw [hj] at h
    simp only [decide_eq_true_eq] at h
    exact ⟨j, rfl, h⟩

/-- Claim C2: artifact readiness gating.  A `tick` of the job page
requests the result document only when the fetched status is
`succeeded` and the result is not yet loaded; on any other status the
page keeps showing placeholders (`showArtifacts` stays false) and leaves
the one-second polling interval installed; once the result has loaded
for a succeeded job the interval is cleared; and the annotated artifact
is rendered only when the last observed status is `succeeded`. -/
theorem job_page_artifact_gating (s : PollState) (jobResp : Except String JobOut)
    (resResp : Except String Jv) :
    ((tick jobResp resResp s).2 = true →
      ∃ j, jobResp = Except.ok j ∧ j.status = JobStatus.succeeded ∧
        s.resultLoaded = false) ∧
    (∀ j, jobResp = Except.ok j → j.status ≠ JobStatus.succeeded →
      showArtifacts (tick jobResp resResp s).1 = false ∧
      (tick jobResp resResp s).1.intervalActive = s.intervalActive) ∧
    (∀ j, jobResp = Except.ok j → j.status = JobStatus.succeeded →
      (tick jobResp resResp s).1.resultLoaded = true →
      (tick jobResp resResp s).1.intervalActive = false) ∧
    (showArtifacts (tick jobResp resResp s).1 = true →
      ∃ j, (tick jobResp resResp s).1.job = some j ∧
        j.status = JobStatus.succeeded) ∧
    POLL_INTERVAL_MS = 1000 := by
  refine ⟨?_, ?_, ?_, fun h => showArtifacts_eq_true h, rfl⟩
  · intro hreq
    cases jobResp with
    | error e => cases hreq
    | ok j =>
      by_cases hsucc : j.status = JobStatus.succeeded
      · by_cases hrl : s.resultLoaded = false
        · exact ⟨j, rfl, hsucc, hrl⟩
        · have hrl2 : s.resultLoaded = true := by
            cases hb : s.resultLoaded
            · exact absurd hb hrl
            · rfl
          exfalso
          simp [tick, hsucc, hrl2] at hreq
      · exfalso
        simp [tick, hsucc] at hreq
  · intro j hj hns
    subst hj
    simp only [tick, hns]
    simp [showArtifacts, hns]
  · intro j hj hsucc hloaded
    subst hj
    by_cases hrl : s.resultLoaded = false
    · cases resResp with
      | ok r => simp [tick, hsucc, hrl]
      | error e =>
        exfalso
        simp only [tick, hsucc, hrl] at hloaded
        simp [hrl] at hloaded
    · have hrl2 : s.resultLoaded = true := by
        cases hb : s.resultLoaded
        · exact absurd hb hrl
        · rfl
      simp [tick, hsucc, hrl2]

/-- A concrete succeeded job record. -/
def demoJob : JobOut :=
  { id := "j1", status := JobStatus.succeeded, task_type := TaskType.object,
    updated_at := "t1", progress := 100, filename := "cat.jpg",
    content_type := "image/jpeg", size_bytes := 5000, conf := none, iou := none,
    imgsz := none, error_message := none, has_result_json := true,
    has_annotated_image := true }

/-- The job page state before the first tick. -/
def pollInit : PollState :=
  { job := none, result := none, error := none, resultLoaded := false,
    intervalActive := true }

/-- Witness for C2: the first tick that observes `demoJob` as succeeded
and fetches the result clears the interval. -/
theorem job_page_artifact_gating_witness :
    (tick (Except.ok demoJob) (Except.ok Jv.other) pollInit).1.resultLoaded = true ∧
    (tick (Except.ok demoJob) (Except.ok Jv.other) pollInit).1.intervalActive = false :=
  ⟨by decide,
   (job_page_artifact_gating pollInit (Except.ok demoJob) (Except.ok Jv.other)).2.2.1
     demoJob rfl (by decide) (by decide)⟩

/-- Rewriting of the job page's `isVideo` to an extension-or-MIME
disjunction. -/
theorem isVideoJobPage_eq (j : JobOut) :
    isVideoJobPage (some j)
      = (hasVideoExt j.filename || jsStartsWith j.content_type "video/") := by
  unfold isVideoJobPage hasVideoExt
  cases hx : (jsEndsWith (jsToLower j.filename) ".mp4"
      || jsEndsWith (jsToLower j.filename) ".mov"
      || jsEndsWith (jsToLower j.filename) ".avi") <;> simp_all

/-- Rewriting of the upload page's `isVideo` to a MIME-or-extension
disjunction: the nonemptiness test is redundant because the empty MIME
type does not start with `video/`. -/
theorem isVideoHome_eq (f : FileMeta) :
    isVideoHome (some f)
      = (jsStartsWith f.fileType "video/" || hasVideoExt f.name) := by
  unfold isVideoHome
  by_cases he : f.fileType = ""
  · have h0 : jsStartsWith "" "video/" = false := by decide
    simp [he, h0]
  · have hne : (f.fileType != "") = true := by simp [he]
    cases hsw : jsStartsWith f.fileType "video/" <;> simp [hne, hsw]

/-- Claim C10: the two `isVideo` predicates agree.  For a job record
echoing a file's name and content type, the upload page's predicate and
the job page's predicate return the same boolean, and both are true
exactly when the content type starts with `video/` or the lowercased
name ends with `.mp4`, `.mov` or `.avi`. -/
theorem isVideo_predicates_agree (f : FileMeta) (j : JobOut)
    (hn : j.filename = f.name) (hc : j.content_type = f.fileType) :
    isVideoHome (some f) = isVideoJobPage (some j) ∧
    (isVideoHome (some f) = true ↔
      (jsStartsWith f.fileType "video/" = true ∨ hasVideoExt f.name = true)) := by
  rw [isVideoHome_eq, isVideoJobPage_eq, hn, hc]
  constructor
  · rw [Bool.or_comm]
  · rw [Bool.or_eq_true]

/-! ## Refined live session model (claim C1)

The handler-atomic machine above is exact for the synchronous handlers,
but `sendNext` (`page.tsx` lines 297-310) is an `async` function: it
sets its closure-local `inFlight`, suspends at
`await captureJpegBytes()`, and only after resuming re-reads
`wsRef.current` and calls `send`.  Moreover `inFlight` is a local of
each `start()` invocation, so a closure belonging to an earlier session
is not blocked by the current session's flag.  This refined model
represents both: `gen` numbers the `start()` invocations (hence the
`sendNext` closures), `inFlights` holds the generations whose flag is
currently set, `pending` holds the generations of `sendNext` calls
suspended at the capture await, and one send is split into `sendBeginA`
(the code before the await) and `sendResumeA` (the code after it). -/

/-- A WebSocket held in `wsRef.current`, with the ghost count of frames
delivered on it whose reply has not yet arrived. -/
structure AsyncWs where
  url : String
  readyState : WsState
  unanswered : Nat
deriving DecidableEq, Repr

/-- The live page state in the refined model.  The handlers of the held
socket belong to generation `gen`, since only `start` (which increments
`gen`) ever assigns `wsRef.current`. -/
structure AsyncLiveState where
  runningRef : Bool
  running : Bool
  connected : Bool
  gen : Nat
  ws : Option AsyncWs
  inFlights : List Nat
  pending : List Nat
  taskType : TaskType
  conf : String
  iou : String
  imgsz : String
  annotatedSrc : Option String
  inferenceMs : Option Int
  result : Option Jv
  error : Option String
deriving DecidableEq, Repr

/-- The initial component state of the refined model (`page.tsx` lines
162-177); no `start()` closure exists yet. -/
def initALive : AsyncLiveState :=
  { runningRef := false
    running := false
    connected := false
    gen := 0
    ws := none
    inFlights := []
    pending := []
    taskType := TaskType.object
    conf := "0.25"
    iou := "0.7"
    imgsz := "640"
    annotatedSrc := none
    inferenceMs := none
    result := none
    error := none }

/-- The `stop` function (`page.tsx` lines 265-278) in the refined model.
Suspended captures and closure flags are untouched: `stop` does not
cancel a pending `await`. -/
def stopA (s : AsyncLiveState) : AsyncLiveState :=
  let s1 := { s with runningRef := false, running := false, connected := false }
  match s1.ws with
  | none => s1
  | some _ => { s1 with ws := none }

/-- The first half of `sendNext` for the closure of generation `g`: the
three guards (`runningRef`, the reference and its ready state, the
closure's own `inFlight`), then `inFlight = true` and the suspension at
`await captureJpegBytes()`. -/
def sendBeginA (g : Nat) (s : AsyncLiveState) : AsyncLiveState :=
  if s.runningRef = false then s
  else match s.ws with
  | none => s
  | some w =>
    if w.readyState ≠ WsState.opened then s
    else if g ∈ s.inFlights then s
    else { s with inFlights := g :: s.inFlights, pending := g :: s.pending }

/-- The second half of `sendNext` for a capture of generation `g` that
completes: no guard is re-checked; the code re-reads `wsRef.current` and
calls `send`.  A null reference raises a TypeError and a CONNECTING
socket an InvalidStateError, both caught by the surrounding try which
records the error and calls `stop()`; `send` on a closing or closed
socket silently discards the frame; on an OPEN socket the frame is
delivered.  A failed capture takes the catch path directly.  The
closure's `inFlight` is never reset on these paths. -/
def sendResumeA (g : Nat) (cap : CaptureOutcome) (s : AsyncLiveState) : AsyncLiveState :=
  if g ∈ s.pending then
    match cap with
    | CaptureOutcome.err msg =>
        stopA { s with pending := s.pending.erase g, error := some msg }
    | CaptureOutcome.ok =>
      match s.ws with
      | none =>
          stopA { s with pending := s.pending.erase g, error := some "TypeError" }
      | some w =>
        match w.readyState with
        | WsState.connecting =>
            stopA { s with pending := s.pending.erase g,
                           error := some "InvalidStateError" }
        | WsState.opened =>
            { s with pending := s.pending.erase g,
                     ws := some { w with unanswered := w.unanswered + 1 } }
        | WsState.closed => { s with pending := s.pending.erase g }
  else s

/-- The `start` function (`page.tsx` lines 280-295) in the refined
model: a new closure generation with its own fresh `inFlight`, and a new
socket on the URL built from the current parameters. -/
def startA (u : UrlParts) (s : AsyncLiveState) : AsyncLiveState :=
  let s1 := { s with error := none, result := none, annotatedSrc := none,
                     inferenceMs := none }
  if s1.runningRef then s1
  else
    { s1 with runningRef := true, running := true, gen := s1.gen + 1,
              ws := some { url := wsUrl u s1.taskType s1.conf s1.iou s1.imgsz,
                           readyState := WsState.connecting, unanswered := 0 } }

/-- The `ws.onopen` handler (`page.tsx` lines 312-315): the current
socket reaches OPEN, `connected` is set, and the current generation's
`sendNext` runs up to its await. -/
def onopenA (s : AsyncLiveState) : AsyncLiveState :=
  sendBeginA s.gen
    { s with connected := true,
             ws := s.ws.map (fun w => { w with readyState := WsState.opened }) }

/-- The `ws.onmessage` handler (`page.tsx` lines 317-336) of the current
socket, hence of generation `gen`: a parse failure records the error and
stops; a parsed reply stores the fields, resets the current generation's
`inFlight`, and answers one frame on the socket; the `setTimeout` that
queues the next `sendNext` call is a later `sendE` event of the trace. -/
def onmessageA (m : Option LiveMsg) (errText : String) (s : AsyncLiveState) :
    AsyncLiveState :=
  match m with
  | none => stopA { s with error := some errText }
  | some msg =>
    { s with result := some msg.result
             inferenceMs := inferenceMsOf msg
             annotatedSrc := some ("data:image/jpeg;base64," ++ msg.annotated_jpeg_base64)
             inFlights := s.inFlights.erase s.gen
             ws := s.ws.map (fun w => { w with unanswered := w.unanswered - 1 }) }

/-- The `ws.onerror` handler (`page.tsx` lines 338-341). -/
def onerrorA (s : AsyncLiveState) : AsyncLiveState :=
  stopA { s with error := some "WebSocket error" }

/-- The `ws.onclose` handler (`page.tsx` lines 343-347): flags cleared,
the reference kept. -/
def oncloseA (s : AsyncLiveState) : AsyncLiveState :=
  { s with connected := false, running := false, runningRef := false,
           ws := s.ws.map (fun w => { w with readyState := WsState.closed }) }

/-- The unmount cleanup (`page.tsx` lines 222-233) in the refined
model. -/
def unmountA (s : AsyncLiveState) : AsyncLiveState :=
  match s.ws with
  | none => s
  | some _ => { s with ws := none }

/-- The parameter `onChange` handlers, disabled while running, in the
refined model. -/
def editTaskTypeA (t : TaskType) (s : AsyncLiveState) : AsyncLiveState :=
  if s.running then s else { s with taskType := t }

/-- The conf input handler of the refined model. -/
def editConfA (v : String) (s : AsyncLiveState) : AsyncLiveState :=
  if s.running then s else { s with conf := v }

/-- The iou input handler of the refined model. -/
def editIouA (v : String) (s : AsyncLiveState) : AsyncLiveState :=
  if s.running then s else { s with iou := v }

/-- The imgsz input handler of the refined model. -/
def editImgszA (v : String) (s : AsyncLiveState) : AsyncLiveState :=
  if s.running then s else { s with imgsz := v }

/-- One event of the refined live page: `sendE g` is an invocation of
the generation-`g` `sendNext` closure (from `onopen` via `openE`, from a
queued `setTimeout`, or a stale queued call of an earlier generation);
`resumeE g cap` is the completion of a suspended capture of generation
`g`. -/
inductive ALiveEvent where
  | editTaskE (t : TaskType)
  | editConfE (v : String)
  | editIouE (v : String)
  | editImgszE (v : String)
  | startE (u : UrlParts)
  | openE
  | messageE (m : Option LiveMsg) (errText : String)
  | sendE (g : Nat)
  | resumeE (g : Nat) (cap : CaptureOutcome)
  | errorE
  | closeE
  | stopE
  | unmountE
deriving Repr

/-- The handler an event runs in the refined model. -/
def aApplyEvent : ALiveEvent → AsyncLiveState → AsyncLiveState
  | ALiveEvent.editTaskE t, s => editTaskTypeA t s
  | ALiveEvent.editConfE v, s => editConfA v s
  | ALiveEvent.editIouE v, s => editIouA v s
  | ALiveEvent.editImgszE v, s => editImgszA v s
  | ALiveEvent.startE u, s => startA u s
  | ALiveEvent.openE, s => onopenA s
  | ALiveEvent.messageE m errText, s => onmessageA m errText s
  | ALiveEvent.sendE g, s => sendBeginA g s
  | ALiveEvent.resumeE g cap, s => sendResumeA g cap s
  | ALiveEvent.errorE, s => onerrorA s
  | ALiveEvent.closeE, s => oncloseA s
  | ALiveEvent.stopE, s => stopA s
  | ALiveEvent.unmountE, s => unmountA s

/-- When an event can occur: a `sendNext` closure exists only for the
generations created so far, and the server (spec 4.3) writes one reply
per received frame, so a message arrives only on a socket with an
unanswered frame.  Everything else is unrestricted. -/
def aEventAllowed : ALiveEvent → AsyncLiveState → Prop
  | ALiveEvent.sendE g, s => 1 ≤ g ∧ g ≤ s.gen
  | ALiveEvent.messageE _ _, s => ∃ w, s.ws = some w ∧ 1 ≤ w.unanswered
  | _, _ => True

/-- One step of the refined live page. -/
inductive AStep : AsyncLiveState → AsyncLiveState → Prop where
  | step (e : ALiveEvent) (s : AsyncLiveState) (h : aEventAllowed e s) :
      AStep s (aApplyEvent e s)

/-- The states the refined live page can reach from its initial state. -/
inductive AReachable : AsyncLiveState → Prop where
  | init : AReachable initALive
  | step {s s' : AsyncLiveState} : AReachable s → AStep s s' → AReachable s'

/-- The unanswered-frame count of a possibly held socket. -/
def unansweredWs : Option AsyncWs → Nat
  | some w => w.unanswered
  | none => 0

/-- The inductive invariant of the refined model: flags belong to
created generations and are mutually distinct, a held socket implies a
session was started, and the unanswered frames plus the suspended
captures are bounded by the number of set flags. -/
def ASlotInv (s : AsyncLiveState) : Prop :=
  (∀ g ∈ s.inFlights, 1 ≤ g ∧ g ≤ s.gen) ∧
  s.inFlights.Nodup ∧
  (∀ w, s.ws = some w → 1 ≤ s.gen) ∧
  unansweredWs s.ws + s.pending.length ≤ s.inFlights.length

theorem stopA_ws (s : AsyncLiveState) : (stopA s).ws = none := by
  cases hws : s.ws <;> simp [stopA, hws]

theorem stopA_inFlights (s : AsyncLiveState) : (stopA s).inFlights = s.inFlights := by
  cases hws : s.ws <;> simp [stopA, hws]

theorem stopA_pending (s : AsyncLiveState) : (stopA s).pending = s.pending := by
  cases hws : s.ws <;> simp [stopA, hws]

theorem stopA_gen (s : AsyncLiveState) : (stopA s).gen = s.gen := by
  cases hws : s.ws <;> simp [stopA, hws]

theorem unansweredWs_map (o : Option AsyncWs) (f : AsyncWs → AsyncWs)
    (hf : ∀ w, (f w).unanswered = w.unanswered) :
    unansweredWs (o.map f) = unansweredWs o := by
  cases o with
  | none => rfl
  | some w => simp [unansweredWs, hf]

theorem aSlotInv_stopA {s : AsyncLiveState} (h : ASlotInv s) : ASlotInv (stopA s) := by
  obtain ⟨h1, h2, h3, h4⟩ := h
  refine ⟨?_, ?_, ?_, ?_⟩
  · rw [stopA_inFlights, stopA_gen]; exact h1
  · rw [stopA_inFlights]; exact h2
  · intro w hw; rw [stopA_ws] at hw; cases hw
  · rw [stopA_ws, stopA_pending, stopA_inFlights]
    simp only [unansweredWs]
    omega

theorem aSlotInv_sendBeginA (g : Nat) {s : AsyncLiveState}
    (hg : ∀ w, s.ws = some w → 1 ≤ g ∧ g ≤ s.gen)
    (h : ASlotInv s) : ASlotInv (sendBeginA g s) := by
  unfold sendBeginA
  split
  · exact h
  · split
    · exact h
    · next w hws =>
      split
      · exact h
      · split
        · exact h
        · next hnin =>
          obtain ⟨h1, h2, h3, h4⟩ := h
          obtain ⟨hg1, hg2⟩ := hg w hws
          rw [hws] at h4
          simp only [unansweredWs] at h4
          refine ⟨?_, List.nodup_cons.mpr ⟨hnin, h2⟩, fun w2 hw2 => h3 w hws, ?_⟩
          · intro g2 hmem
            rcases List.mem_cons.mp hmem with rfl | hmem2
            · exact ⟨hg1, hg2⟩
            · exact h1 g2 hmem2
          · simp only [unansweredWs, hws, List.length_cons]
            omega

theorem aSlotInv_sendResumeA (g : Nat) (cap : CaptureOutcome) {s : AsyncLiveState}
    (h : ASlotInv s) : ASlotInv (sendResumeA g cap s) := by
  unfold sendResumeA
  split
  · next hpend =>
    obtain ⟨h1, h2, h3, h4⟩ := h
    have hlen : (s.pending.erase g).length = s.pending.length - 1 :=
      List.length_erase_of_mem hpend
    have hp1 : 1 ≤ s.pending.length :=
      List.length_pos.mpr (List.ne_nil_of_mem hpend)
    split
    · -- the capture threw
      refine ⟨?_, ?_, ?_, ?_⟩
      · rw [stopA_inFlights, stopA_gen]; exact h1
      · rw [stopA_inFlights]; exact h2
      · intro w hw; rw [stopA_ws] at hw; cases hw
      · rw [stopA_ws, stopA_pending, stopA_inFlights]
        simp only [unansweredWs]
        omega
    · -- the capture produced a frame: re-read the reference
      split
      · -- reference is null: send throws
        refine ⟨?_, ?_, ?_, ?_⟩
        · rw [stopA_inFlights, stopA_gen]; exact h1
        · rw [stopA_inFlights]; exact h2
        · intro w hw; rw [stopA_ws] at hw; cases hw
        · rw [stopA_ws, stopA_pending, stopA_inFlights]
          simp only [unansweredWs]
          omega
      · next w hws =>
        rw [hws] at h4
        simp only [unansweredWs] at h4
        split
        · -- socket still connecting: send throws
          refine ⟨?_, ?_, ?_, ?_⟩
          · rw [stopA_inFlights, stopA_gen]; exact h1
          · rw [stopA_inFlights]; exact h2
          · intro w2 hw2; rw [stopA_ws] at hw2; cases hw2
          · rw [stopA_ws, stopA_pending, stopA_inFlights]
            simp only [unansweredWs]
            omega
        · -- socket OPEN: the frame is delivered
          refine ⟨h1, h2, fun w2 hw2 => h3 w hws, ?_⟩
          simp only [unansweredWs]
          omega
        · -- socket closed: the frame is discarded
          refine ⟨h1, h2, fun w2 hw2 => h3 w hws, ?_⟩
          simp only [unansweredWs, hws]
          omega
  · exact h

theorem aSlotInv_onmessageA (m : Option LiveMsg) (errText : String)
    {s : AsyncLiveState} (hw : ∃ w, s.ws = some w ∧ 1 ≤ w.unanswered)
    (h : ASlotInv s) : ASlotInv (onmessageA m errText s) := by
  obtain ⟨w, hws, hu⟩ := hw
  obtain ⟨h1, h2, h3, h4⟩ := h
  cases m with
  | none =>
    simp only [onmessageA]
    refine ⟨?_, ?_, ?_, ?_⟩
    · rw [stopA_inFlights, stopA_gen]; exact h1
    · rw [stopA_inFlights]; exact h2
    · intro w2 hw2; rw [stopA_ws] at hw2; cases hw2
    · rw [stopA_ws, stopA_pending, stopA_inFlights]
      simp only [unansweredWs]
      omega
  | some msg =>
    simp only [onmessageA]
    rw [hws] at h4
    simp only [unansweredWs] at h4
    refine ⟨fun g2 hmem => h1 g2 (List.mem_of_mem_erase hmem),
            List.Nodup.erase _ h2, fun w2 hw2 => h3 w hws, ?_⟩
    simp only [unansweredWs, hws, Option.map_some']
    by_cases hin : s.gen ∈ s.inFlights
    · have hle := List.length_erase_of_mem hin
      have hf1 : 1 ≤ s.inFlights.length :=
        List.length_pos.mpr (List.ne_nil_of_mem hin)
      omega
    · rw [List.erase_of_not_mem hin]
      omega

theorem aSlotInv_applyEvent (e : ALiveEvent) {s : AsyncLiveState}
    (hall : aEventAllowed e s) (h : ASlotInv s) : ASlotInv (aApplyEvent e s) := by
  cases e with
  | editTaskE t =>
    simp only [aApplyEvent, editTaskTypeA]
    split
    · exact h
    · exact ⟨h.1, h.2.1, h.2.2.1, h.2.2.2⟩
  | editConfE v =>
    simp only [aApplyEvent, editConfA]
    split
    · exact h
    · exact ⟨h.1, h.2.1, h.2.2.1, h.2.2.2⟩
  | editIouE v =>
    simp only [aApplyEvent, editIouA]
    split
    · exact h
    · exact ⟨h.1, h.2.1, h.2.2.1, h.2.2.2⟩
  | editImgszE v =>
    simp only [aApplyEvent, editImgszA]
    split
    · exact h
    · exact ⟨h.1, h.2.1, h.2.2.1, h.2.2.2⟩
  | startE u =>
    simp only [aApplyEvent, startA]
    split
    · exact ⟨h.1, h.2.1, h.2.2.1, h.2.2.2⟩
    · obtain ⟨h1, h2, h3, h4⟩ := h
      refine ⟨?_, h2, ?_, ?_⟩
      · intro g hg
        exact ⟨(h1 g hg).1, Nat.le_succ_of_le (h1 g hg).2⟩
      · intro w2 hw2
        show 1 ≤ s.gen + 1
        omega
      · simp only [unansweredWs]
        omega
  | openE =>
    obtain ⟨h1, h2, h3, h4⟩ := h
    show ASlotInv (sendBeginA s.gen
      { s with connected := true,
               ws := s.ws.map (fun w => { w with readyState := WsState.opened }) })
    have hmid : ASlotInv
        { s with connected := true,
                 ws := s.ws.map (fun w => { w with readyState := WsState.opened }) } := by
      refine ⟨h1, h2, ?_, ?_⟩
      · intro w2 hw2
        have hw3 : s.ws.map (fun w => { w with readyState := WsState.opened })
            = some w2 := hw2
        cases hws : s.ws with
        | none => rw [hws] at hw3; simp at hw3
        | some w => exact h3 w hws
      · show unansweredWs (s.ws.map (fun w => { w with readyState := WsState.opened }))
            + s.pending.length ≤ s.inFlights.length
        rw [unansweredWs_map s.ws
          (fun w => { w with readyState := WsState.opened }) (fun w => rfl)]
        exact h4
    refine aSlotInv_sendBeginA s.gen ?_ hmid
    intro w2 hw2
    have hw3 : s.ws.map (fun w => { w with readyState := WsState.opened }) = some w2 := hw2
    refine ⟨?_, le_refl _⟩
    cases hws : s.ws with
    | none => rw [hws] at hw3; simp at hw3
    | some w => exact h3 w hws
  | messageE m errText =>
    exact aSlotInv_onmessageA m errText hall h
  | sendE g =>
    exact aSlotInv_sendBeginA g (fun w _ => hall) h
  | resumeE g cap =>
    exact aSlotInv_sendResumeA g cap h
  | errorE =>
    exact aSlotInv_stopA ⟨h.1, h.2.1, h.2.2.1, h.2.2.2⟩
  | closeE =>
    obtain ⟨h1, h2, h3, h4⟩ := h
    refine ⟨h1, h2, ?_, ?_⟩
    · intro w2 hw2
      have hw3 : s.ws.map (fun w => { w with readyState := WsState.closed })
          = some w2 := hw2
      cases hws : s.ws with
      | none => rw [hws] at hw3; simp at hw3
      | some w => exact h3 w hws
    · show unansweredWs (s.ws.map (fun w => { w with readyState := WsState.closed }))
          + s.pending.length ≤ s.inFlights.length
      rw [unansweredWs_map s.ws
        (fun w => { w with readyState := WsState.closed }) (fun w => rfl)]
      exact h4
  | stopE =>
    exact aSlotInv_stopA h
  | unmountE =>
    simp only [aApplyEvent, unmountA]
    cases hws : s.ws with
    | none => exact h
    | some w =>
      obtain ⟨h1, h2, h3, h4⟩ := h
      refine ⟨h1, h2, ?_, ?_⟩
      · intro w2 hw2
        exact Option.noConfusion hw2
      · show unansweredWs none + s.pending.length ≤ s.inFlights.length
        simp only [unansweredWs]
        omega

theorem aSlotInv_reachable {s : AsyncLiveState} (h : AReachable s) : ASlotInv s := by
  induction h with
  | init =>
    refine ⟨?_, ?_, ?_, ?_⟩
    · intro g hg; cases hg
    · exact List.nodup_nil
    · intro w hw; cases hw
    · simp [initALive, unansweredWs]
  | step _ hstep ih =>
    cases hstep with
    | step e s hall => exact aSlotInv_applyEvent e hall ih


/-- The refined states of the counterexample trace: start, the socket
opens and the generation-1 capture begins, stop during the capture
await, start again, the new socket opens and the generation-2 capture
begins, the generation-2 capture resumes and sends, then the stale
generation-1 capture resumes and sends on the new socket. -/
def asyncT1 : AsyncLiveState := aApplyEvent (ALiveEvent.startE demoUrl) initALive

/-- The trace state after the first socket opened. -/
def asyncT2 : AsyncLiveState := aApplyEvent ALiveEvent.openE asyncT1

/-- The trace state after `stop()` ran during the capture await. -/
def asyncT3 : AsyncLiveState := aApplyEvent ALiveEvent.stopE asyncT2

/-- The trace state after the second `start()`. -/
def asyncT4 : AsyncLiveState := aApplyEvent (ALiveEvent.startE demoUrl) asyncT3

/-- The trace state after the second socket opened. -/
def asyncT5 : AsyncLiveState := aApplyEvent ALiveEvent.openE asyncT4

/-- The trace state after the generation-2 capture resumed and sent. -/
def asyncT6 : AsyncLiveState :=
  aApplyEvent (ALiveEvent.resumeE 2 CaptureOutcome.ok) asyncT5

/-- The trace state after the stale generation-1 capture resumed and
sent a second frame on the second socket. -/
def asyncT7 : AsyncLiveState :=
  aApplyEvent (ALiveEvent.resumeE 1 CaptureOutcome.ok) asyncT6

theorem asyncT2_reachable : AReachable asyncT2 :=
  AReachable.step
    (AReachable.step AReachable.init
      (AStep.step (ALiveEvent.startE demoUrl) initALive trivial))
    (AStep.step ALiveEvent.openE asyncT1 trivial)

theorem asyncT7_reachable : AReachable asyncT7 :=
  AReachable.step (AReachable.step (AReachable.step (AReachable.step (AReachable.step
    asyncT2_reachable
    (AStep.step ALiveEvent.stopE asyncT2 trivial))
    (AStep.step (ALiveEvent.startE demoUrl) asyncT3 trivial))
    (AStep.step ALiveEvent.openE asyncT4 trivial))
    (AStep.step (ALiveEvent.resumeE 2 CaptureOutcome.ok) asyncT5 trivial))
    (AStep.step (ALiveEvent.resumeE 1 CaptureOutcome.ok) asyncT6 trivial)

/-- The second socket of the counterexample trace, holding two
unanswered frames. -/
def asyncCexWs : AsyncWs :=
  { url := wsUrl demoUrl TaskType.object "0.25" "0.7" "640"
    readyState := WsState.opened
    unanswered := 2 }

/-- Counterexample to claim C1 as stated: a `stop()`/`start()` during
the capture await of the first session leaves the generation-1 closure
suspended with its own `inFlight`; after the restart the generation-2
closure (a fresh `inFlight`) sends a frame, and then the stale
generation-1 capture resumes and `wsRef.current.send` delivers a second
frame on the new socket — two unanswered frames on one live session,
produced by `onopen` and queued `sendNext` paths alone. -/
theorem live_single_slot_backpressure_cex :
    AReachable asyncT7 ∧
    asyncT7.ws.map AsyncWs.unanswered = some 2 ∧
    ¬(∀ s : AsyncLiveState, AReachable s → ∀ w, s.ws = some w → w.unanswered ≤ 1) := by
  refine ⟨asyncT7_reachable, by decide, fun hall => ?_⟩
  have h2 := hall asyncT7 asyncT7_reachable asyncCexWs (by decide)
  exact absurd h2 (by decide)

/-- Claim C1, amended: single-slot backpressure holds for a session that
is not restarted.  In every reachable state of the refined model in
which `start()` has run at most once — so no stale closure of an earlier
session can hold a suspended capture — the held socket carries at most
one unanswered frame; and a generation whose in-flight flag is set
cannot begin another send, so the client never sends ahead within a
session. -/
theorem live_single_slot_backpressure_amended (s : AsyncLiveState)
    (h : AReachable s) (hone : s.gen ≤ 1) :
    (∀ w, s.ws = some w → w.unanswered ≤ 1) ∧
    (∀ g, g ∈ s.inFlights → sendBeginA g s = s) := by
  obtain ⟨h1, h2, h3, h4⟩ := aSlotInv_reachable h
  constructor
  · intro w hws
    have hlen : s.inFlights.length ≤ 1 := by
      cases hf : s.inFlights with
      | nil => simp
      | cons a t =>
        cases ht : t with
        | nil => simp
        | cons b t2 =>
          exfalso
          have ha := h1 a (by rw [hf]; exact List.mem_cons_self a t)
          have hb := h1 b
            (by rw [hf, ht]; exact List.mem_cons_of_mem a (List.mem_cons_self b t2))
          have hnd := h2
          rw [hf, ht] at hnd
          have hanb : a ∉ b :: t2 := (List.nodup_cons.mp hnd).1
          have hab : a ≠ b := fun he => hanb (he ▸ List.mem_cons_self b t2)
          obtain ⟨ha1, ha2⟩ := ha
          obtain ⟨hb1, hb2⟩ := hb
          omega
    rw [hws] at h4
    simp only [unansweredWs] at h4
    omega
  · intro g hg
    unfold sendBeginA
    split
    · rfl
    · split
      · rfl
      · next w hws =>
        split
        · rfl
        · simp [hg]

/-- The first session's socket after its first frame was delivered. -/
def asyncW1 : AsyncWs :=
  { url := wsUrl demoUrl TaskType.object "0.25" "0.7" "640"
    readyState := WsState.opened
    unanswered := 1 }

/-- The single-session state after the first frame was delivered. -/
def asyncS3 : AsyncLiveState :=
  aApplyEvent (ALiveEvent.resumeE 1 CaptureOutcome.ok) asyncT2

theorem asyncS3_reachable : AReachable asyncS3 :=
  AReachable.step asyncT2_reachable
    (AStep.step (ALiveEvent.resumeE 1 CaptureOutcome.ok) asyncT2 trivial)

/-- Witness for the amended C1 at the concrete single-session state with
one frame in flight. -/
theorem live_single_slot_backpressure_amended_witness :
    AReachable asyncS3 ∧ asyncS3.gen ≤ 1 ∧ asyncS3.ws = some asyncW1 ∧
      asyncW1.unanswered ≤ 1 :=
  ⟨asyncS3_reachable, by decide, by decide,
   (live_single_slot_backpressure_amended asyncS3 asyncS3_reachable (by decide)).1
     asyncW1 (by decide)⟩

/-- Witness for C10 at a file with an uppercase `.MOV` extension and an
empty MIME type. -/
theorem isVideo_predicates_agree_witness :
    isVideoHome (some { name := "clip.MOV", fileType := "", size := 10 })
      = isVideoJobPage (some { demoJob with filename := "clip.MOV", content_type := "" }) ∧
    isVideoHome (some { name := "clip.MOV", fileType := "", size := 10 }) = true :=
  ⟨(isVideo_predicates_agree { name := "clip.MOV", fileType := "", size := 10 }
      { demoJob with filename := "clip.MOV", content_type := "" } rfl rfl).1,
   (isVideo_predicates_agree { name := "clip.MOV", fileType := "", size := 10 }
      { demoJob with filename := "clip.MOV", content_type := "" } rfl rfl).2.mpr
     (Or.inr (by decide))⟩

end OdYolo
